import Mathlib

/-!
Verification of the ucf_desktop front end (shallow embedding).

The definitions below are translated from the repository's JavaScript
sources:

* `src/unnamed/part_003` — the multi-conversation renderer: per-conversation
  DOM state, the global UI state, conversation switching/queueing, the
  incoming-message handler, and message sending.
* `src/unnamed/part_002` (second half) — the Electron preload bridge
  (`contextBridge.exposeInMainWorld('agent', ...)`).
* `src/desktop/renderer/web-agent.js` — the WebSocket implementation of the
  same `window.agent` API.

DOM elements are modelled as values: a conversation's `messages` element is a
list of nodes tagged with a serial number `nid` standing for JavaScript
object identity (the source keeps direct element references in
`pendingToolCards` and `currentAssistantEl`; the serial number plays that
role here).  Presentation-only details (CSS classes, markdown rendering,
HTML escaping, scrolling, focus) are abstracted: a node stores the data the
source writes into the element, and `innerHTML` is an opaque serialization.
-/

namespace UCF

/-! ## Bridge layer: JSON envelopes (preload.js vs web-agent.js) -/

/-- A JSON value as it appears in the bridge messages. -/
inductive JVal where
  | jnull
  | jstr (s : String)
  | jbool (b : Bool)
  | jarr (xs : List String)
  | jobj (pairs : List (String × String))
  deriving DecidableEq

/-- JavaScript truthiness of a `JVal`, as used by the `args || ''` default in
both bridge implementations. -/
def jsTruthy : JVal → Bool
  | .jnull => false
  | .jstr s => s ≠ ""
  | .jbool b => b
  | .jarr _ => true
  | .jobj _ => true

/-- One outbound JSON message object `{type: ..., ...fields}`. -/
structure Envelope where
  type : String
  fields : List (String × JVal)
  deriving DecidableEq

namespace Preload

/-- `src/unnamed/part_002` line 227: `ipcRenderer.send('send-to-python',
{ type: 'user_message', content })`. -/
def sendMessage (content : String) : Envelope :=
  ⟨"user_message", [("content", .jstr content)]⟩

/-- `src/unnamed/part_002` line 230: `{ type: 'user_message', content,
rag_folders: folders }`. -/
def sendMessageWithFolders (content : String) (folders : List String) : Envelope :=
  ⟨"user_message", [("content", .jstr content), ("rag_folders", .jarr folders)]⟩

/-- `src/unnamed/part_002` line 234: `{ type: 'confirm_response', id, approved }`. -/
def sendConfirm (id : String) (approved : Bool) : Envelope :=
  ⟨"confirm_response", [("id", .jstr id), ("approved", .jbool approved)]⟩

/-- `src/unnamed/part_002` line 237: `{ type: 'command', name, args: args || '' }`. -/
def sendCommand (name : String) (args : JVal) : Envelope :=
  ⟨"command", [("name", .jstr name), ("args", if jsTruthy args then args else .jstr "")]⟩

end Preload

namespace WebAgent

/-- `src/desktop/renderer/web-agent.js` line 56:
`sendJSON({ type: 'user_message', content: content })`. -/
def sendMessage (content : String) : Envelope :=
  ⟨"user_message", [("content", .jstr content)]⟩

/-- `web-agent.js` line 60: `sendJSON({ type: 'user_message', content:
content, rag_folders: folders })`. -/
def sendMessageWithFolders (content : String) (folders : List String) : Envelope :=
  ⟨"user_message", [("content", .jstr content), ("rag_folders", .jarr folders)]⟩

/-- `web-agent.js` line 64: `sendJSON({ type: 'confirm_response', id: id,
approved: approved })`. -/
def sendConfirm (id : String) (approved : Bool) : Envelope :=
  ⟨"confirm_response", [("id", .jstr id), ("approved", .jbool approved)]⟩

/-- `web-agent.js` line 68: `sendJSON({ type: 'command', name: name,
args: args || '' })`. -/
def sendCommand (name : String) (args : JVal) : Envelope :=
  ⟨"command", [("name", .jstr name), ("args", if jsTruthy args then args else .jstr "")]⟩

end WebAgent

/-- C7: the Electron preload bridge and the WebSocket web-agent implement the
same outbound protocol: for every invocation of `sendMessage`,
`sendMessageWithFolders`, `sendConfirm` and `sendCommand` with the same
arguments, both produce a JSON message object with identical type value and
identical field names and values (with `args` defaulting to the empty string
when falsy). -/
theorem c7_bridge_protocols_agree :
    (∀ content, Preload.sendMessage content = WebAgent.sendMessage content) ∧
    (∀ content folders,
      Preload.sendMessageWithFolders content folders =
        WebAgent.sendMessageWithFolders content folders) ∧
    (∀ id approved, Preload.sendConfirm id approved = WebAgent.sendConfirm id approved) ∧
    (∀ name args, Preload.sendCommand name args = WebAgent.sendCommand name args) := by
  refine ⟨fun _ => rfl, fun _ _ => rfl, fun _ _ => rfl, fun _ _ => rfl⟩

/-! ## part_003 data model

`part_003` keeps a `Map` from conversation id to a per-conversation state
holding a detached DOM element (`el`), the streaming-assistant bookkeeping
and the FIFO of pending tool cards, plus a `globalState` record. -/

/-- One entry of a `todo_update` event (`renderTodoList`, part_003:784). -/
structure Todo where
  status : String
  content : String
  activeForm : String
  deriving DecidableEq

/-- Data carried by one child node of a conversation's messages element.
Presentation (CSS classes, escaping, markdown) is abstracted to the data the
source writes into the node:

* `bubble raw streaming` — an assistant bubble; `raw` is
  `currentAssistantRaw`, `streaming` the `streaming-cursor` class;
* `toolCard name body status` — a tool card; `body` is the truncated args
  string while running and the result preview after rewrite; `status = none`
  while running (`running` class), `some st` after a result (`result-st`);
* `snapshotHtml` — content restored wholesale from a `ui_html` snapshot. -/
inductive NodeData where
  | userMsg (content : String)
  | bubble (raw : String) (streaming : Bool)
  | toolCard (name : String) (body : String) (status : Option String)
  | confirmCard (cid : String) (tool : String) (argsDisplay : String) (preview : String)
  | statusMsg (text : String) (ephemeral : Bool)
  | errorMsg (text : String)
  | todoCard (todos : List Todo)
  | snapshotHtml (html : String)
  deriving DecidableEq

/-- A DOM child node: `nid` is a serial number standing for JavaScript object
identity (the source stores direct element references in
`pendingToolCards` / `currentAssistantEl`). -/
structure Node where
  nid : Nat
  data : NodeData
  deriving DecidableEq

/-- `createConversationState` (part_003:4):
per-conversation state.  `nodes` is the `conversation-messages` element's
child list, `visible` its `display` style, `nextNid` the next fresh serial
number, `currentAssistant` the `nid` behind `currentAssistantEl`, and
`pendingToolCards` holds the `nid`s of queued tool cards (push order). -/
structure Conv where
  id : String
  nodes : List Node
  nextNid : Nat
  visible : Bool
  title : String
  currentAssistant : Option Nat
  currentAssistantRaw : String
  pendingToolCards : List Nat
  deriving DecidableEq

/-- `globalState` (part_003:19) plus the input element's disabled/placeholder
state, the status bar and the compacting overlay, and the conversation
registry (`conversations` Map, in insertion order with unique ids). -/
structure UIState where
  conversations : List Conv
  isConnected : Bool
  isBusy : Bool
  autoConfirm : Bool
  disabledSkills : List String
  ragFolders : List String
  backendConvId : Option String
  activeConvId : Option String
  pendingSwitchId : Option String
  inputDisabled : Bool
  inputPlaceholder : String
  statusLabel : String
  compacting : Bool
  deriving DecidableEq

/-- Argument payloads passed to `window.agent.sendCommand` by part_003. -/
inductive CmdArg where
  | noArgs
  | str (s : String)
  | switchArgs (id : String) (ui_html : String)
  | htmlArgs (ui_html : String)
  deriving DecidableEq

/-- Messages part_003 emits over the `window.agent` bridge. -/
inductive OutMsg where
  | command (name : String) (args : CmdArg)
  | confirmResponse (id : String) (approved : Bool)
  | userMessage (content : String) (ragFolders : List String)
  deriving DecidableEq

/-- `conversations.get(id)` with a possibly-null key (`getBackendConv`,
part_003:30, and `getActiveConv`, part_003:34). -/
def getConv (s : UIState) (i : Option String) : Option Conv :=
  match i with
  | none => none
  | some id => s.conversations.find? (fun c => c.id == id)

/-- In-place mutation of a conversation object held in the registry: the
entry with the conversation's id is replaced by the updated value. -/
def setConv (s : UIState) (c : Conv) : UIState :=
  { s with conversations := s.conversations.map (fun c0 => if c0.id = c.id then c else c0) }

/-- The common pattern of every rendering function in part_003:
`var conv = getBackendConv(); if (!conv) return; ...mutate conv...`. -/
def withBackendConv (s : UIState) (g : Conv → Conv) : UIState :=
  match getConv s s.backendConvId with
  | none => s
  | some conv => setConv s (g conv)

/-- `JSON.stringify` truncation in `appendToolCall` (part_003:215):
`argsStr.length > 300 ? argsStr.slice(0, 300) + '...' : argsStr`. -/
def truncate300 (a : String) : String :=
  if a.length > 300 then a.take 300 ++ "..." else a

/-- Truncation in `appendConfirmCard` (part_003:260). -/
def truncate200 (a : String) : String :=
  if a.length > 200 then a.take 200 ++ "..." else a

/-- Result preview in `appendToolResult` (part_003:244):
`result.length > 150 ? result.slice(0, 150) + '...' : result`. -/
def preview150 (r : String) : String :=
  if r.length > 150 then r.take 150 ++ "..." else r

/-- Opaque serialization of a node (stand-in for its rendered HTML). -/
def NodeData.render : NodeData → String
  | .userMsg c => c
  | .bubble raw _ => raw
  | .toolCard n b _ => n ++ b
  | .confirmCard i t a p => i ++ t ++ a ++ p
  | .statusMsg t _ => t
  | .errorMsg t => t
  | .todoCard _ => "todos"
  | .snapshotHtml h => h

/-- `el.innerHTML` read as an opaque string (used by the `ui_html` snapshot
commands). -/
def Conv.innerHTML (c : Conv) : String :=
  String.join (c.nodes.map (fun n => n.data.render))

/-! ## part_003 conversation management -/

/-- `createConversationState(id, title)` (part_003:4): a fresh, empty,
hidden element (`ensureConversation` appends it with `display:'none'`). -/
def createConversationState (id title : String) : Conv :=
  { id := id, nodes := [], nextNid := 0, visible := false, title := title,
    currentAssistant := none, currentAssistantRaw := "", pendingToolCards := [] }

/-- `ensureConversation(convId, title)` (part_003:55). -/
def ensureConversation (s : UIState) (convId title : String) : UIState :=
  if (s.conversations.find? (fun c => c.id == convId)).isSome then s
  else { s with conversations := s.conversations ++ [createConversationState convId title] }

/-- `showConversation(convId)` (part_003:65): every conversation's element
gets `display = (id === convId) ? 'block' : 'none'`, and `activeConvId` is
set (the conversation-list highlight is presentation-only). -/
def showConversation (s : UIState) (convId : String) : UIState :=
  { s with
    conversations := s.conversations.map (fun c => { c with visible := c.id == convId }),
    activeConvId := some convId }

/-- `disableInputWithMessage(msg)` (part_003:853). -/
def disableInputWithMessage (msg : String) (s : UIState) : UIState :=
  { s with inputDisabled := true, inputPlaceholder := msg }

/-- The placeholder restored by `enableInput` / `setBusy(false)`
(part_003:849, 866). -/
def defaultPlaceholder : String :=
  "メッセージを入力... (Enter で送信, Shift+Enter で改行)"

/-- `enableInput()` (part_003:846) — focus is presentation-only. -/
def enableInput (s : UIState) : UIState :=
  { s with inputDisabled := false, inputPlaceholder := defaultPlaceholder }

/-- `setBusy(busy)` (part_003:859). -/
def setBusy (busy : Bool) (s : UIState) : UIState :=
  let s1 := { s with isBusy := busy, inputDisabled := busy }
  if busy then s1
  else if s1.activeConvId = s1.backendConvId then
    { s1 with inputPlaceholder := defaultPlaceholder }
  else s1

/-- The label table of `setStatus` (part_003:872). -/
def statusLabelFor (x : String) : String :=
  if x = "connecting" then "接続中..."
  else if x = "ready" then "準備完了"
  else if x = "busy" then "処理中..."
  else if x = "error" then "エラー"
  else x

/-- `setStatus(s)` (part_003:872). -/
def setStatus (x : String) (s : UIState) : UIState :=
  { s with statusLabel := statusLabelFor x }

/-- `switchConversation(convId)` (part_003:73).  Returns the new state and
the messages sent over the bridge.  While busy the switch is visual-only:
the target is shown and either queued in `pendingSwitchId` (replacing any
older queued target) or, when the target is the conversation the backend is
processing, the queue is cleared.  Otherwise a full switch runs: show the
target, send `switch_conversation` with the current backend conversation's
`ui_html`, and move `backendConvId`. -/
def switchConversation (s : UIState) (convId : String) : UIState × List OutMsg :=
  if some convId = s.activeConvId ∧ some convId = s.backendConvId then (s, [])
  else if s.isBusy then
    let s1 := showConversation s convId
    if some convId = s1.backendConvId then
      (disableInputWithMessage "処理中..." { s1 with pendingSwitchId := none }, [])
    else
      (disableInputWithMessage "処理完了後に送信できます" { s1 with pendingSwitchId := some convId }, [])
  else
    let s1 := showConversation s convId
    let currentHtml :=
      match getConv s1 s1.backendConvId with
      | some c => c.innerHTML
      | none => ""
    ({ s1 with backendConvId := some convId },
     [OutMsg.command "switch_conversation" (CmdArg.switchArgs convId currentHtml)])

/-! ## part_003 message rendering -/

/-- Update (in place) every node carrying the given serial number. -/
def updateNode (ns : List Node) (nid : Nat) (f : NodeData → NodeData) : List Node :=
  ns.map (fun n => if n.nid = nid then ⟨n.nid, f n.data⟩ else n)

/-- Effect of `appendUserMessage` on the backend conversation. -/
def appendUserMessageStep (content : String) (conv : Conv) : Conv :=
  { conv with
    nodes := conv.nodes ++ [⟨conv.nextNid, .userMsg content⟩],
    nextNid := conv.nextNid + 1 }

/-- `appendUserMessage(content)` (part_003:110). -/
def appendUserMessage (s : UIState) (content : String) : UIState :=
  withBackendConv s (appendUserMessageStep content)

/-- `startAssistantMessage()` (part_003:123) restricted to the conversation
it operates on (the source fetches `getBackendConv()` itself; callers below
pass it that conversation). -/
def startAssistantMessage (conv : Conv) : Conv :=
  { conv with
    nodes := conv.nodes ++ [⟨conv.nextNid, .bubble "" true⟩],
    currentAssistant := some conv.nextNid,
    currentAssistantRaw := "",
    nextNid := conv.nextNid + 1 }

/-- `innerHTML = renderMarkdown(raw)` on a bubble — we store the raw text,
markdown rendering being presentation-only. -/
def bubbleWithRaw (raw : String) : NodeData → NodeData
  | .bubble _ streaming => .bubble raw streaming
  | d => d

/-- Effect of `appendToken` on the backend conversation: lazily start an
assistant bubble, extend `currentAssistantRaw`, rewrite the bubble. -/
def tokenStep (content : String) (conv : Conv) : Conv :=
  let conv1 := if conv.currentAssistant = none then startAssistantMessage conv else conv
  match conv1.currentAssistant with
  | some nid =>
    let raw := conv1.currentAssistantRaw ++ content
    { conv1 with
      currentAssistantRaw := raw,
      nodes := updateNode conv1.nodes nid (bubbleWithRaw raw) }
  | none => conv1

/-- `appendToken(content)` (part_003:138). -/
def appendToken (s : UIState) (content : String) : UIState :=
  withBackendConv s (tokenStep content)

/-- `classList.remove('streaming-cursor')` on the current bubble. -/
def stopStreaming : NodeData → NodeData
  | .bubble raw _ => .bubble raw false
  | d => d

/-- `finalizeAssistantMessage()` (part_003:149) at the conversation level. -/
def finalizeConv (conv : Conv) : Conv :=
  match conv.currentAssistant with
  | none => conv
  | some nid =>
    { conv with
      nodes := updateNode conv.nodes nid stopStreaming,
      currentAssistant := none,
      currentAssistantRaw := "" }

/-- `finalizeAssistantMessage()` (part_003:149): no-op when there is no
backend conversation or no streaming bubble. -/
def finalizeAssistantMessage (s : UIState) : UIState :=
  withBackendConv s finalizeConv

/-- Effect of the card-creation part of `appendToolCall` on the backend
conversation. -/
def toolCallStep (name argsStr : String) (conv : Conv) : Conv :=
  { conv with
    nodes := conv.nodes ++ [⟨conv.nextNid, .toolCard name (truncate300 argsStr) none⟩],
    pendingToolCards := conv.pendingToolCards ++ [conv.nextNid],
    nextNid := conv.nextNid + 1 }

/-- `appendToolCall(name, args)` (part_003:184): finalize any streaming
bubble, then append a `running` tool card and push it on
`pendingToolCards`.  `argsStr` is the pre-stringified argument text. -/
def appendToolCall (s : UIState) (name argsStr : String) : UIState :=
  withBackendConv (finalizeAssistantMessage s) (toolCallStep name argsStr)

/-- `c.dataset.toolName === name` for the pending card with serial `nid`. -/
def cardHasName (ns : List Node) (nid : Nat) (name : String) : Bool :=
  match ns.find? (fun n => n.nid == nid) with
  | some n =>
    match n.data with
    | .toolCard n' _ _ => n' == name
    | _ => false
  | none => false

/-- `pendingToolCards.findIndex(...)` followed by `splice(idx, 1)[0]`
(part_003:228-229), fused: the first element satisfying `p` together with
the remaining list, or `none` when no element matches. -/
def extractFirst (p : α → Bool) : List α → Option (α × List α)
  | [] => none
  | x :: xs => if p x then some (x, xs) else (extractFirst p xs).map (fun r => (r.1, x :: r.2))

/-- The rewrite `appendToolResult` applies to the matched card
(part_003:231-246): drop `running`, add `result-status`, rewrite the header
with the status, and set the body to the result preview. -/
def rewriteCard (status body : String) : NodeData → NodeData
  | .toolCard n _ _ => .toolCard n body (some status)
  | d => d

/-- `appendToolResult(name, result, status)` (part_003:224): match the
earliest pending tool card with the same tool name (FIFO), remove it from
the queue and rewrite it; when no card matches — or there is no backend
conversation — nothing happens. -/
def appendToolResult (s : UIState) (name result status : String) : UIState :=
  match getConv s s.backendConvId with
  | none => s
  | some conv =>
    match extractFirst (fun nid => cardHasName conv.nodes nid name) conv.pendingToolCards with
    | none => s
    | some (nid, rest) =>
      setConv s
        { conv with
          pendingToolCards := rest,
          nodes := updateNode conv.nodes nid (rewriteCard status (preview150 result)) }

/-- Effect of the card-creation part of `appendConfirmCard` on the backend
conversation. -/
def confirmCardStep (cid tool argsStr preview : String) (conv : Conv) : Conv :=
  { conv with
    nodes := conv.nodes ++
      [⟨conv.nextNid, .confirmCard cid tool (truncate200 argsStr) preview⟩],
    nextNid := conv.nextNid + 1 }

/-- `appendConfirmCard(id, toolName, args, preview)` (part_003:249). -/
def appendConfirmCard (s : UIState) (cid tool argsStr preview : String) : UIState :=
  withBackendConv (finalizeAssistantMessage s) (confirmCardStep cid tool argsStr preview)

/-- Is this node an ephemeral status message
(`.status-message[data-ephemeral="1"]`)? -/
def isEphemeralStatus : NodeData → Bool
  | .statusMsg _ ephemeral => ephemeral
  | _ => false

/-- Effect of `removeEphemeralStatus` on the backend conversation. -/
def removeEphemeralStep (conv : Conv) : Conv :=
  { conv with nodes := conv.nodes.filter (fun n => !isEphemeralStatus n.data) }

/-- `removeEphemeralStatus()` (part_003:325). -/
def removeEphemeralStatus (s : UIState) : UIState :=
  withBackendConv s removeEphemeralStep

/-- Effect of the append part of `appendStatusMessage`. -/
def statusMsgStep (text : String) (ephemeral : Bool) (conv : Conv) : Conv :=
  { conv with
    nodes := conv.nodes ++ [⟨conv.nextNid, .statusMsg text ephemeral⟩],
    nextNid := conv.nextNid + 1 }

/-- `appendStatusMessage(text, ephemeral)` (part_003:313). -/
def appendStatusMessage (s : UIState) (text : String) (ephemeral : Bool) : UIState :=
  withBackendConv (removeEphemeralStatus s) (statusMsgStep text ephemeral)

/-- Effect of `appendErrorMessage` on the backend conversation. -/
def errorMsgStep (text : String) (conv : Conv) : Conv :=
  { conv with
    nodes := conv.nodes ++ [⟨conv.nextNid, .errorMsg text⟩],
    nextNid := conv.nextNid + 1 }

/-- `appendErrorMessage(text)` (part_003:332). -/
def appendErrorMessage (s : UIState) (text : String) : UIState :=
  withBackendConv s (errorMsgStep text)

/-- Is this node the todo card (`.todo-card`)? -/
def isTodoCard : NodeData → Bool
  | .todoCard _ => true
  | _ => false

/-- Effect of `renderTodoList` on the backend conversation: update the
existing todo card, or append a fresh one. -/
def todoListStep (todos : List Todo) (conv : Conv) : Conv :=
  match conv.nodes.find? (fun n => isTodoCard n.data) with
  | some n => { conv with nodes := updateNode conv.nodes n.nid (fun _ => .todoCard todos) }
  | none =>
    { conv with
      nodes := conv.nodes ++ [⟨conv.nextNid, .todoCard todos⟩],
      nextNid := conv.nextNid + 1 }

/-- `renderTodoList(todos)` (part_003:784). -/
def renderTodoList (s : UIState) (todos : List Todo) : UIState :=
  withBackendConv s (todoListStep todos)

/-! ## part_003 event handlers and sending -/

/-- The per-event rendering performed by `window.agent.onMessage`
(part_003:395) for the events that draw into a conversation's element.  The
surrounding status-bar / busy-flag updates of those handler cases
(`setStatus`, `setBusy`) touch the status bar and input only, not any
conversation element, and are modelled separately where a claim needs
them. -/
inductive RenderOp where
  | token (content : String)
  | toolCall (name argsStr : String)
  | toolResult (name result status : String)
  | confirmRequest (cid tool argsStr preview : String)
  | statusEvent (text : String) (ephemeral : Bool)
  | errorEvent (text : String)
  | todoUpdate (todos : List Todo)
  | userEcho (content : String)
  deriving DecidableEq

/-- The conversation-element effect of each handler case, in source order:
`token` and `tool_call` first call `removeEphemeralStatus()`
(part_003:448, 454); `error` first calls `finalizeAssistantMessage()`
(part_003:520); the user echo is `appendUserMessage` from `sendMessage`
(part_003:578-580). -/
def applyRenderOp : RenderOp → UIState → UIState
  | .token c, s => appendToken (removeEphemeralStatus s) c
  | .toolCall n a, s => appendToolCall (removeEphemeralStatus s) n a
  | .toolResult n r st, s => appendToolResult s n r st
  | .confirmRequest i t a p, s => appendConfirmCard s i t a p
  | .statusEvent t e, s => appendStatusMessage s t e
  | .errorEvent t, s => appendErrorMessage (finalizeAssistantMessage s) t
  | .todoUpdate ts, s => renderTodoList s ts
  | .userEcho c, s => appendUserMessage s c

/-- The opening of the `chat_finished` handler (part_003:475-480):
`removeEphemeralStatus(); finalizeAssistantMessage(); if (isBusy)
{ setStatus('ready'); setBusy(false); }`. -/
def chatFinishedBase (s : UIState) : UIState :=
  if (finalizeAssistantMessage (removeEphemeralStatus s)).isBusy then
    setBusy false (setStatus "ready" (finalizeAssistantMessage (removeEphemeralStatus s)))
  else finalizeAssistantMessage (removeEphemeralStatus s)

/-- part_003:482-487: save the finished backend conversation's HTML, when
there is one. -/
def saveHtmlOut (s : UIState) : List OutMsg :=
  match getConv s s.backendConvId with
  | some c => [OutMsg.command "save_conversation_html" (CmdArg.htmlArgs c.innerHTML)]
  | none => []

/-- The `chat_finished` case of the incoming-message handler
(part_003:474-496): finalize, drop the busy flag if set, save the finished
conversation's HTML, apply the queued conversation switch (clearing the
queue first), and request the updated conversation list. -/
def handleChatFinished (s : UIState) : UIState × List OutMsg :=
  match (chatFinishedBase s).pendingSwitchId with
  | some targetId =>
    let r := switchConversation { chatFinishedBase s with pendingSwitchId := none } targetId
    (r.1, saveHtmlOut (chatFinishedBase s) ++ r.2 ++
      [OutMsg.command "list_conversations" CmdArg.noArgs])
  | none =>
    (chatFinishedBase s,
     saveHtmlOut (chatFinishedBase s) ++ [OutMsg.command "list_conversations" CmdArg.noArgs])

/-- The `error` case of the incoming-message handler (part_003:519-525):
finalize, hide the compacting overlay, append the error message, set the
status bar to error and drop the busy flag.  It does not touch
`pendingSwitchId` and sends nothing. -/
def handleError (s : UIState) (message : String) : UIState × List OutMsg :=
  let s1 := finalizeAssistantMessage s
  let s2 := { s1 with compacting := false }
  let s3 := appendErrorMessage s2 message
  (setBusy false (setStatus "error" s3), [])

/-- The `conversation_switched` case (part_003:536-546): ensure the target
conversation exists, restore the carried `ui_html` snapshot only when the
target's element has no children, show the target, move `backendConvId`,
clear the queued switch and re-enable input.  An absent `ui_html` field is
the empty string (falsy). -/
def handleConversationSwitched (s : UIState) (convId title ui_html : String) :
    UIState :=
  let s1 := ensureConversation s convId title
  let s2 :=
    match getConv s1 (some convId) with
    | none => s1
    | some conv =>
      if ui_html ≠ "" ∧ conv.nodes = [] then
        setConv s1
          { conv with
            nodes := [⟨conv.nextNid, .snapshotHtml ui_html⟩],
            nextNid := conv.nextNid + 1 }
      else s1
  let s3 := showConversation s2 convId
  enableInput { s3 with backendConvId := some convId, pendingSwitchId := none }

/-- The `conversation_deleted` case (part_003:552-558): remove the element
and drop the registry entry. -/
def handleConversationDeleted (s : UIState) (convId : String) : UIState :=
  { s with conversations := s.conversations.filter (fun c => !(c.id == convId)) }

/-- The delete button's click handler in `renderConversationList`
(part_003:363-369): deleting the conversation the backend is processing is
refused by an early `return` — nothing is sent and nothing changes;
otherwise, if the user confirms the dialog, the `delete_conversation`
command is sent.  `confirmed` is the result of `confirm(...)`. -/
def deleteBtnClick (s : UIState) (convId : String) (confirmed : Bool) :
    UIState × List OutMsg :=
  if some convId = s.backendConvId then (s, [])
  else if confirmed then (s, [OutMsg.command "delete_conversation" (CmdArg.str convId)])
  else (s, [])

/-- JavaScript `String.prototype.trim`: strip leading and trailing
whitespace (executable shallow model; `String.trim` itself is defined by
well-founded recursion and does not evaluate in proofs). -/
def jsTrim (s : String) : String :=
  String.mk (((s.data.dropWhile Char.isWhitespace).reverse.dropWhile
    Char.isWhitespace).reverse)

/-- `f.split('/').pop() || f` (part_003:577). -/
def folderDisplayName (f : String) : String :=
  let last := (f.splitOn "/").getLastD ""
  if last = "" then f else last

/-- `sendMessage()` (part_003:569): refuse when the trimmed input is empty,
the UI is busy or disconnected, or the displayed conversation differs from
the backend conversation; otherwise echo the user message, set the busy
flag and send `user_message` (with the RAG folders when any are queued).
The input value is passed explicitly; on send the source also clears the
input box, which is presentation-only here. -/
def sendMessage (s : UIState) (inputValue : String) : UIState × List OutMsg :=
  let content := jsTrim inputValue
  if content = "" ∨ s.isBusy = true ∨ s.isConnected = false then (s, [])
  else if s.activeConvId ≠ s.backendConvId then (s, [])
  else
    let s1 :=
      if s.ragFolders ≠ [] then
        appendUserMessage s
          (content ++ "\n[RAG folders: " ++
            String.intercalate ", " (s.ragFolders.map folderDisplayName) ++ "]")
      else appendUserMessage s content
    let s2 := setStatus "busy" (setBusy true s1)
    if s.ragFolders ≠ [] then (s2, [OutMsg.userMessage content s.ragFolders])
    else (s2, [OutMsg.userMessage content []])

/-! ## Switch-request sequences (for the queueing claims) -/

/-- Process a sequence of user switch requests in order, collecting
everything sent over the bridge. -/
def applySwitchReqs (s : UIState) : List String → UIState × List OutMsg
  | [] => (s, [])
  | r :: rs =>
    let p := switchConversation s r
    let q := applySwitchReqs p.1 rs
    (q.1, p.2 ++ q.2)

/-- The queued-switch target after a sequence of busy-time requests: each
request replaces the queued target, and a request naming the backend
conversation clears the queue. -/
def queuedAfter (backend : Option String) : Option String → List String → Option String
  | q, [] => q
  | _, r :: rs => queuedAfter backend (if some r = backend then none else some r) rs

/-- The targets of all `switch_conversation` commands in an outbound
message list. -/
def switchTargets (out : List OutMsg) : List String :=
  out.filterMap (fun m =>
    match m with
    | OutMsg.command "switch_conversation" (CmdArg.switchArgs i _) => some i
    | _ => none)

/-! ## Confirmation-card click model (for the single-resolution claim)

`appendConfirmCard` wires both buttons' click listeners to `resolveConfirm`
(part_003:279-284).  `resolveConfirm` (part_003:290) disables both buttons
and replaces the whole `.confirm-buttons` contents with a resolved label, so
the buttons no longer exist in the DOM afterwards; a click event can only
dispatch on a button that is present and enabled, which `buttonsActive`
captures. -/

/-- The interactive part of one confirmation card. -/
structure ConfirmCardUI where
  buttonsActive : Bool
  resolvedLabel : Option String
  deriving DecidableEq

/-- The card as `appendConfirmCard` creates it: both buttons live. -/
def freshConfirmCard : ConfirmCardUI :=
  { buttonsActive := true, resolvedLabel := none }

/-- `resolveConfirm(card, id, approved)` (part_003:290). -/
def resolveConfirm (id : String) (approved : Bool) : ConfirmCardUI × List OutMsg :=
  ({ buttonsActive := false,
     resolvedLabel := some (if approved then "承認済み" else "キャンセル済み") },
   [OutMsg.confirmResponse id approved])

/-- One click on the approve (`approved = true`) or cancel button: the
listener fires only while the button exists. -/
def clickConfirm (c : ConfirmCardUI) (id : String) (approved : Bool) :
    ConfirmCardUI × List OutMsg :=
  if c.buttonsActive then resolveConfirm id approved else (c, [])

/-- A sequence of clicks on one card (each entry: which button). -/
def runClicks (c : ConfirmCardUI) (id : String) : List Bool → ConfirmCardUI × List OutMsg
  | [] => (c, [])
  | a :: rest =>
    let p := clickConfirm c id a
    let q := runClicks p.1 id rest
    (q.1, p.2 ++ q.2)

/-! ## Basic lemmas -/

@[simp] lemma setConv_isBusy (s : UIState) (c : Conv) : (setConv s c).isBusy = s.isBusy := rfl

@[simp] lemma setConv_backend (s : UIState) (c : Conv) :
    (setConv s c).backendConvId = s.backendConvId := rfl

@[simp] lemma setConv_active (s : UIState) (c : Conv) :
    (setConv s c).activeConvId = s.activeConvId := rfl

@[simp] lemma setConv_pending (s : UIState) (c : Conv) :
    (setConv s c).pendingSwitchId = s.pendingSwitchId := rfl

@[simp] lemma setConv_connected (s : UIState) (c : Conv) :
    (setConv s c).isConnected = s.isConnected := rfl

@[simp] lemma withBackendConv_isBusy (s : UIState) (g : Conv → Conv) :
    (withBackendConv s g).isBusy = s.isBusy := by
  unfold withBackendConv
  cases getConv s s.backendConvId <;> rfl

@[simp] lemma withBackendConv_backend (s : UIState) (g : Conv → Conv) :
    (withBackendConv s g).backendConvId = s.backendConvId := by
  unfold withBackendConv
  cases getConv s s.backendConvId <;> rfl

@[simp] lemma withBackendConv_active (s : UIState) (g : Conv → Conv) :
    (withBackendConv s g).activeConvId = s.activeConvId := by
  unfold withBackendConv
  cases getConv s s.backendConvId <;> rfl

@[simp] lemma withBackendConv_pending (s : UIState) (g : Conv → Conv) :
    (withBackendConv s g).pendingSwitchId = s.pendingSwitchId := by
  unfold withBackendConv
  cases getConv s s.backendConvId <;> rfl

@[simp] lemma withBackendConv_connected (s : UIState) (g : Conv → Conv) :
    (withBackendConv s g).isConnected = s.isConnected := by
  unfold withBackendConv
  cases getConv s s.backendConvId <;> rfl

lemma withBackendConv_of_none (s : UIState) (g : Conv → Conv)
    (h : getConv s s.backendConvId = none) : withBackendConv s g = s := by
  unfold withBackendConv
  rw [h]

lemma getConv_some_id {s : UIState} {i : Option String} {conv : Conv}
    (h : getConv s i = some conv) : i = some conv.id := by
  unfold getConv at h
  cases i with
  | none => exact absurd h (by simp)
  | some x =>
    have := List.find?_some h
    simp only [beq_iff_eq] at this
    rw [this]

lemma find?_map_id_pres (l : List Conv) (f : Conv → Conv)
    (hf : ∀ c, (f c).id = c.id) (i : String) :
    (l.map f).find? (fun c => c.id == i) = (l.find? (fun c => c.id == i)).map f := by
  induction l with
  | nil => rfl
  | cons a l ih =>
    simp only [List.map_cons, List.find?]
    rw [hf a]
    cases h : (a.id == i) <;> simp [ih]

lemma getConv_setConv_of_found {s : UIState} {i : Option String} {conv : Conv}
    (h : getConv s i = some conv) (c' : Conv) (hid : c'.id = conv.id) :
    getConv (setConv s c') i = some c' := by
  obtain ⟨x, hx⟩ : ∃ x, i = some x := by
    cases i with
    | none => exact absurd h (by simp [getConv])
    | some x => exact ⟨x, rfl⟩
  subst hx
  have hrepl : ∀ c : Conv, ((if c.id = c'.id then c' else c) : Conv).id = c.id := by
    intro c
    split
    · next hc => exact hc.symm
    · rfl
  show (s.conversations.map fun c0 => if c0.id = c'.id then c' else c0).find?
      (fun c => c.id == x) = some c'
  rw [find?_map_id_pres _ _ hrepl]
  have h' : s.conversations.find? (fun c => c.id == x) = some conv := by
    simpa [getConv] using h
  rw [h']
  simp only [Option.map_some']
  rw [if_pos hid.symm]

/-! ## Sample states (used by witnesses and counterexamples) -/

/-- A small registry with two empty conversations `a` and `b`, backend and
display both on `a`, idle and connected. -/
def sampleBase : UIState :=
  { conversations := [createConversationState "a" "", createConversationState "b" ""],
    isConnected := true, isBusy := false, autoConfirm := false, disabledSkills := [],
    ragFolders := [], backendConvId := some "a", activeConvId := some "a",
    pendingSwitchId := none, inputDisabled := false,
    inputPlaceholder := defaultPlaceholder, statusLabel := "準備完了",
    compacting := false }

/-- `sampleBase` with a turn in flight on `a`. -/
def sampleBusy : UIState := { sampleBase with isBusy := true }

/-- A busy state on `a` with a switch to `b` already queued (the user
clicked `b` while `a` was processing). -/
def sampleBusyQueued : UIState :=
  { sampleBusy with
    pendingSwitchId := some "b",
    activeConvId := some "b",
    conversations :=
      [createConversationState "a" "",
       { createConversationState "b" "" with visible := true }],
    inputDisabled := true, inputPlaceholder := "処理完了後に送信できます" }

/-- A conversation with two running tool cards, both for `read_file`,
queued in push order `[0, 1]`. -/
def toolConv : Conv :=
  { id := "a",
    nodes := [⟨0, .toolCard "read_file" "args0" none⟩,
              ⟨1, .toolCard "read_file" "args1" none⟩],
    nextNid := 2, visible := true, title := "", currentAssistant := none,
    currentAssistantRaw := "", pendingToolCards := [0, 1] }

/-- A busy state whose backend conversation is `toolConv`. -/
def sampleToolState : UIState := { sampleBusy with conversations := [toolConv] }

/-- A conversation with two running tool cards bearing distinct names, as
the dispatcher guarantees within one batch. -/
def toolConvUniq : Conv :=
  { toolConv with
    nodes := [⟨0, .toolCard "read_file" "args0" none⟩,
              ⟨1, .toolCard "write_file" "args1" none⟩] }

/-- A busy state whose backend conversation is `toolConvUniq`. -/
def sampleToolStateUniq : UIState := { sampleBusy with conversations := [toolConvUniq] }

/-- A state whose backend id names no conversation in the registry. -/
def sampleNoBackend : UIState := { sampleBase with backendConvId := some "z" }

/-! ## C5: a confirmation card resolves at most once -/

lemma runClicks_inactive (id : String) (clicks : List Bool) (c : ConfirmCardUI)
    (h : c.buttonsActive = false) : runClicks c id clicks = (c, []) := by
  induction clicks with
  | nil => rfl
  | cons a rest ih =>
    simp only [runClicks, clickConfirm, h, Bool.false_eq_true, if_false, ih,
      List.nil_append]

/-- C5: each confirmation card resolves at most once from the UI: any click
sequence emits at most one `confirm_response`; the first click resolves the
card — both buttons gone, the resolved label shown — and sends exactly one
`confirm_response{id, approved}`; every later click on the card emits
nothing. -/
theorem c5_confirm_single_resolution :
    (∀ (id : String) (clicks : List Bool),
        (runClicks freshConfirmCard id clicks).2.length ≤ 1) ∧
    (∀ (id : String) (a : Bool) (rest : List Bool),
        (runClicks freshConfirmCard id (a :: rest)).2 = [OutMsg.confirmResponse id a] ∧
        (runClicks freshConfirmCard id (a :: rest)).1.buttonsActive = false ∧
        (runClicks freshConfirmCard id (a :: rest)).1.resolvedLabel =
          some (if a then "承認済み" else "キャンセル済み")) := by
  have hstep : ∀ (id : String) (a : Bool) (rest : List Bool),
      runClicks freshConfirmCard id (a :: rest) =
        ((resolveConfirm id a).1, [OutMsg.confirmResponse id a]) := by
    intro id a rest
    have hres : (resolveConfirm id a).1.buttonsActive = false := rfl
    simp only [runClicks, clickConfirm, freshConfirmCard, if_true,
      runClicks_inactive id rest _ hres]
    rfl
  constructor
  · intro id clicks
    cases clicks with
    | nil => simp [runClicks]
    | cons a rest => rw [hstep id a rest]; exact le_refl 1
  · intro id a rest
    rw [hstep id a rest]
    exact ⟨rfl, rfl, rfl⟩

/-! ## C6: sendMessage guards -/

/-- C6: `sendMessage` emits nothing — and changes nothing — whenever the
busy flag is set, the connection is down, the displayed conversation is not
the backend conversation, or the trimmed input is empty; and whenever it
does emit, it has set the busy flag and disabled the input, so input is
re-enabled only when a later event drops the busy flag. -/
theorem c6_send_guards :
    (∀ (s : UIState) (v : String),
        (jsTrim v = "" ∨ s.isBusy = true ∨ s.isConnected = false ∨
          s.activeConvId ≠ s.backendConvId) →
        sendMessage s v = (s, [])) ∧
    (∀ (s : UIState) (v : String),
        (sendMessage s v).2 ≠ [] →
        (sendMessage s v).1.isBusy = true ∧ (sendMessage s v).1.inputDisabled = true) := by
  constructor
  · intro s v h
    rcases h with h | h | h | h
    · simp [sendMessage, h]
    · simp [sendMessage, h]
    · simp [sendMessage, h]
    · simp [sendMessage, h]
  · intro s v
    by_cases h1 : jsTrim v = "" ∨ s.isBusy = true ∨ s.isConnected = false
    · intro h; exact absurd (by simp [sendMessage, h1]) h
    · by_cases h2 : s.activeConvId ≠ s.backendConvId
      · intro h; exact absurd (by simp [sendMessage, h1, h2]) h
      · intro _
        by_cases h3 : s.ragFolders ≠ [] <;>
          simp [sendMessage, h1, h2, h3, setStatus, setBusy, appendUserMessage]

/-- Concrete check of the C6 guards: a busy state sends nothing, and a
successful send from the idle sample state leaves the UI busy with input
disabled. -/
theorem c6_send_guards_witness :
    sendMessage sampleBusy "hello" = (sampleBusy, []) ∧
    ((sendMessage sampleBase "hello").1.isBusy = true ∧
      (sendMessage sampleBase "hello").1.inputDisabled = true) :=
  ⟨c6_send_guards.1 sampleBusy "hello" (Or.inr (Or.inl rfl)),
   c6_send_guards.2 sampleBase "hello" (by decide)⟩

/-! ## C3: deleting the backend conversation is refused — silently -/

/-- C3 counterexample: clicking delete on the conversation the backend is
processing (even with the confirm dialog accepted) emits no message at all —
in particular no `error` event — and leaves the state untouched; the claim's
"the refusal is reported with an explicit error event" is false, the
refusal is the early `return` at part_003:365. -/
theorem c3_delete_refusal_counterexample :
    deleteBtnClick sampleBusy "a" true = (sampleBusy, []) ∧
    (deleteBtnClick sampleBusy "a" true).2.length = 0 := by
  exact ⟨rfl, rfl⟩

/-- C3 (amended): requesting deletion of the conversation the backend is
processing is refused silently: the `delete_conversation` command is not
issued, no event of any kind is emitted, and the state — hence the registry
and the conversation's rendered element — is unchanged. -/
theorem c3_delete_busy_refused (s : UIState) (convId : String) (confirmed : Bool)
    (h : some convId = s.backendConvId) :
    deleteBtnClick s convId confirmed = (s, []) := by
  unfold deleteBtnClick
  rw [if_pos h]

/-- Concrete application of the amended C3 theorem. -/
theorem c3_delete_busy_refused_witness :
    deleteBtnClick sampleBusy "a" false = (sampleBusy, []) :=
  c3_delete_busy_refused sampleBusy "a" false rfl

/-! ## Projection lemmas for the global-state helpers -/

@[simp] lemma showConversation_backend (s : UIState) (r : String) :
    (showConversation s r).backendConvId = s.backendConvId := rfl

@[simp] lemma showConversation_active (s : UIState) (r : String) :
    (showConversation s r).activeConvId = some r := rfl

@[simp] lemma showConversation_pending (s : UIState) (r : String) :
    (showConversation s r).pendingSwitchId = s.pendingSwitchId := rfl

@[simp] lemma showConversation_isBusy (s : UIState) (r : String) :
    (showConversation s r).isBusy = s.isBusy := rfl

@[simp] lemma disableInput_backend (m : String) (s : UIState) :
    (disableInputWithMessage m s).backendConvId = s.backendConvId := rfl

@[simp] lemma disableInput_active (m : String) (s : UIState) :
    (disableInputWithMessage m s).activeConvId = s.activeConvId := rfl

@[simp] lemma disableInput_pending (m : String) (s : UIState) :
    (disableInputWithMessage m s).pendingSwitchId = s.pendingSwitchId := rfl

@[simp] lemma disableInput_isBusy (m : String) (s : UIState) :
    (disableInputWithMessage m s).isBusy = s.isBusy := rfl

@[simp] lemma setStatus_backend (x : String) (s : UIState) :
    (setStatus x s).backendConvId = s.backendConvId := rfl

@[simp] lemma setStatus_active (x : String) (s : UIState) :
    (setStatus x s).activeConvId = s.activeConvId := rfl

@[simp] lemma setStatus_pending (x : String) (s : UIState) :
    (setStatus x s).pendingSwitchId = s.pendingSwitchId := rfl

@[simp] lemma setStatus_isBusy (x : String) (s : UIState) :
    (setStatus x s).isBusy = s.isBusy := rfl

@[simp] lemma setStatus_conversations (x : String) (s : UIState) :
    (setStatus x s).conversations = s.conversations := rfl

@[simp] lemma setBusy_isBusy (b : Bool) (s : UIState) :
    (setBusy b s).isBusy = b := by
  cases b <;> by_cases h : s.activeConvId = s.backendConvId <;> simp [setBusy, h]

@[simp] lemma setBusy_backend (b : Bool) (s : UIState) :
    (setBusy b s).backendConvId = s.backendConvId := by
  cases b <;> by_cases h : s.activeConvId = s.backendConvId <;> simp [setBusy, h]

@[simp] lemma setBusy_active (b : Bool) (s : UIState) :
    (setBusy b s).activeConvId = s.activeConvId := by
  cases b <;> by_cases h : s.activeConvId = s.backendConvId <;> simp [setBusy, h]

@[simp] lemma setBusy_pending (b : Bool) (s : UIState) :
    (setBusy b s).pendingSwitchId = s.pendingSwitchId := by
  cases b <;> by_cases h : s.activeConvId = s.backendConvId <;> simp [setBusy, h]

@[simp] lemma setBusy_conversations (b : Bool) (s : UIState) :
    (setBusy b s).conversations = s.conversations := by
  cases b <;> by_cases h : s.activeConvId = s.backendConvId <;> simp [setBusy, h]

/-! ## C1/C2: queued conversation switches -/

/-- Behaviour of one `switchConversation` request while a turn is in
flight, assuming the queue invariant (a queued target is the displayed,
non-backend conversation): nothing is sent, the backend id and busy flag are
untouched, and the queue ends up holding the request — or empty when the
request names the backend conversation — and the invariant is preserved. -/
lemma switch_busy_step (s : UIState) (r : String)
    (hb : s.isBusy = true)
    (hinv : ∀ t, s.pendingSwitchId = some t →
      s.activeConvId = some t ∧ some t ≠ s.backendConvId) :
    (switchConversation s r).2 = [] ∧
    (switchConversation s r).1.isBusy = true ∧
    (switchConversation s r).1.backendConvId = s.backendConvId ∧
    (switchConversation s r).1.pendingSwitchId =
      (if some r = s.backendConvId then none else some r) ∧
    (∀ t, (switchConversation s r).1.pendingSwitchId = some t →
      (switchConversation s r).1.activeConvId = some t ∧
      some t ≠ (switchConversation s r).1.backendConvId) := by
  by_cases h0 : some r = s.activeConvId ∧ some r = s.backendConvId
  · have hpn : s.pendingSwitchId = none := by
      cases hp : s.pendingSwitchId with
      | none => rfl
      | some t =>
        obtain ⟨ha, hne⟩ := hinv t hp
        have hrt : r = t := by
          have h := h0.1.trans ha
          injection h
        exact absurd (hrt ▸ h0.2) hne
    have he : switchConversation s r = (s, []) := by
      simp only [switchConversation, if_pos h0]
    rw [he]
    refine ⟨rfl, hb, rfl, ?_, ?_⟩
    · rw [if_pos h0.2]
      exact hpn
    · intro t hp
      rw [hpn] at hp
      cases hp
  · by_cases h1 : some r = s.backendConvId
    · have he : switchConversation s r =
          (disableInputWithMessage "処理中..."
            { showConversation s r with pendingSwitchId := none }, []) := by
        simp only [switchConversation, if_neg h0, hb, if_true, showConversation_backend,
          if_pos h1]
      rw [he]
      refine ⟨rfl, hb, rfl, ?_, ?_⟩
      · rw [if_pos h1]
        rfl
      · intro t hp
        cases hp
    · have he : switchConversation s r =
          (disableInputWithMessage "処理完了後に送信できます"
            { showConversation s r with pendingSwitchId := some r }, []) := by
        simp only [switchConversation, if_neg h0, hb, if_true, showConversation_backend,
          if_neg h1]
      rw [he]
      refine ⟨rfl, hb, rfl, ?_, ?_⟩
      · rw [if_neg h1]
        rfl
      · intro t hp
        have ht : r = t := by
          have hp' : some r = some t := hp
          injection hp'
        subst ht
        exact ⟨rfl, fun hc => h1 hc⟩

/-- Folding a whole sequence of switch requests over a busy state: nothing
is ever sent, the backend id stays put, and the queue holds exactly the
most recent non-backend target (or nothing). -/
lemma applySwitchReqs_busy (rs : List String) (s : UIState)
    (hb : s.isBusy = true)
    (hinv : ∀ t, s.pendingSwitchId = some t →
      s.activeConvId = some t ∧ some t ≠ s.backendConvId) :
    (applySwitchReqs s rs).2 = [] ∧
    (applySwitchReqs s rs).1.isBusy = true ∧
    (applySwitchReqs s rs).1.backendConvId = s.backendConvId ∧
    (applySwitchReqs s rs).1.pendingSwitchId =
      queuedAfter s.backendConvId s.pendingSwitchId rs ∧
    (∀ t, (applySwitchReqs s rs).1.pendingSwitchId = some t →
      (applySwitchReqs s rs).1.activeConvId = some t ∧
      some t ≠ (applySwitchReqs s rs).1.backendConvId) := by
  induction rs generalizing s with
  | nil => exact ⟨rfl, hb, rfl, rfl, hinv⟩
  | cons r rs ih =>
    obtain ⟨hout, hbusy, hback, hpend, hinv'⟩ := switch_busy_step s r hb hinv
    obtain ⟨ih1, ih2, ih3, ih4, ih5⟩ := ih (switchConversation s r).1 hbusy hinv'
    have hfst : (applySwitchReqs s (r :: rs)).1 =
        (applySwitchReqs (switchConversation s r).1 rs).1 := rfl
    have hsnd : (applySwitchReqs s (r :: rs)).2 =
        (switchConversation s r).2 ++ (applySwitchReqs (switchConversation s r).1 rs).2 := rfl
    refine ⟨?_, ?_, ?_, ?_, ?_⟩
    · rw [hsnd, hout, ih1]
      rfl
    · rw [hfst]
      exact ih2
    · rw [hfst, ih3, hback]
    · rw [hfst, ih4, hback, hpend]
      rfl
    · rw [hfst]
      exact ih5

/-- `switch_conversation` commands contained in the `chat_finished`
handler's output, and the handler's effect on the queue, the busy flag and
the backend id: the queued switch (if any) is applied exactly once and the
queue is cleared. -/
lemma chatFinishedBase_pending (s : UIState) :
    (chatFinishedBase s).pendingSwitchId = s.pendingSwitchId := by
  unfold chatFinishedBase
  split <;>
    simp only [setBusy_pending, setStatus_pending, finalizeAssistantMessage,
      removeEphemeralStatus, withBackendConv_pending]

lemma chatFinishedBase_backend (s : UIState) :
    (chatFinishedBase s).backendConvId = s.backendConvId := by
  unfold chatFinishedBase
  split <;>
    simp only [setBusy_backend, setStatus_backend, finalizeAssistantMessage,
      removeEphemeralStatus, withBackendConv_backend]

lemma chatFinishedBase_notBusy (s : UIState) (hb : s.isBusy = true) :
    (chatFinishedBase s).isBusy = false := by
  unfold chatFinishedBase
  have hb1 : (finalizeAssistantMessage (removeEphemeralStatus s)).isBusy = true := by
    simp only [finalizeAssistantMessage, removeEphemeralStatus, withBackendConv_isBusy]
    exact hb
  rw [if_pos hb1]
  exact setBusy_isBusy false _

/-- `switchConversation` when idle and the target differs from displayed-or-
backend: the full-switch branch. -/
lemma switch_full (s' : UIState) (t : String)
    (hcond : ¬(some t = s'.activeConvId ∧ some t = s'.backendConvId))
    (hnb : s'.isBusy = false) :
    switchConversation s' t =
      ({ showConversation s' t with backendConvId := some t },
       [OutMsg.command "switch_conversation"
         (CmdArg.switchArgs t
           (match getConv (showConversation s' t) (showConversation s' t).backendConvId with
            | some c => c.innerHTML
            | none => ""))]) := by
  simp only [switchConversation, if_neg hcond, hnb, Bool.false_eq_true, if_false]

lemma switchTargets_append (a b : List OutMsg) :
    switchTargets (a ++ b) = switchTargets a ++ switchTargets b :=
  List.filterMap_append a b _

lemma switchTargets_save (s : UIState) : switchTargets (saveHtmlOut s) = [] := by
  unfold saveHtmlOut
  cases h : getConv s s.backendConvId <;> simp [switchTargets]

lemma switchTargets_listCmd :
    switchTargets [OutMsg.command "list_conversations" CmdArg.noArgs] = [] := rfl

lemma chatFinished_spec (s : UIState)
    (hb : s.isBusy = true)
    (hinv : ∀ t, s.pendingSwitchId = some t → some t ≠ s.backendConvId) :
    (handleChatFinished s).1.pendingSwitchId = none ∧
    (handleChatFinished s).1.isBusy = false ∧
    switchTargets (handleChatFinished s).2 = s.pendingSwitchId.toList ∧
    (handleChatFinished s).1.backendConvId =
      (match s.pendingSwitchId with
       | some t => some t
       | none => s.backendConvId) := by
  unfold handleChatFinished
  rw [chatFinishedBase_pending]
  cases hp : s.pendingSwitchId with
  | none =>
    dsimp only
    refine ⟨(chatFinishedBase_pending s).trans hp, chatFinishedBase_notBusy s hb, ?_,
      chatFinishedBase_backend s⟩
    rw [switchTargets_append, switchTargets_save, switchTargets_listCmd]
    rfl
  | some t =>
    have hne : some t ≠ s.backendConvId := hinv t hp
    have hcond :
        ¬(some t = ({ chatFinishedBase s with pendingSwitchId := none } : UIState).activeConvId ∧
          some t = ({ chatFinishedBase s with pendingSwitchId := none } : UIState).backendConvId) := by
      intro hc
      have hcb : ({ chatFinishedBase s with pendingSwitchId := none } : UIState).backendConvId =
          s.backendConvId := chatFinishedBase_backend s
      exact hne (hc.2.trans hcb)
    have hnb : ({ chatFinishedBase s with pendingSwitchId := none } : UIState).isBusy = false :=
      chatFinishedBase_notBusy s hb
    have hsw := switch_full { chatFinishedBase s with pendingSwitchId := none } t hcond hnb
    dsimp only
    rw [hsw]
    refine ⟨rfl, hnb, ?_, rfl⟩
    rw [switchTargets_append, switchTargets_append, switchTargets_save, switchTargets_listCmd]
    rfl

/-! ## C1: queued switches, most recent target applied exactly once -/

/-- C1: while a turn is in flight, every switch request is queued, never
applied (nothing is sent over the bridge and the backend id does not move);
the single-slot queue holds the most recent target, a request naming the
backend conversation clearing it; and the `chat_finished` handler applies
the queued switch exactly once — exactly one `switch_conversation` command,
naming the most recent target — and empties the queue. -/
theorem c1_queued_switch_most_recent (s : UIState) (rs : List String)
    (hb : s.isBusy = true) (hq : s.pendingSwitchId = none) :
    (applySwitchReqs s rs).2 = [] ∧
    (applySwitchReqs s rs).1.backendConvId = s.backendConvId ∧
    (applySwitchReqs s rs).1.pendingSwitchId = queuedAfter s.backendConvId none rs ∧
    (handleChatFinished (applySwitchReqs s rs).1).1.pendingSwitchId = none ∧
    switchTargets (handleChatFinished (applySwitchReqs s rs).1).2 =
      (queuedAfter s.backendConvId none rs).toList ∧
    (handleChatFinished (applySwitchReqs s rs).1).1.backendConvId =
      (match queuedAfter s.backendConvId none rs with
       | some t => some t
       | none => s.backendConvId) := by
  have hinv0 : ∀ t, s.pendingSwitchId = some t →
      s.activeConvId = some t ∧ some t ≠ s.backendConvId := by
    intro t ht
    rw [hq] at ht
    cases ht
  obtain ⟨h1, h2, h3, h4, h5⟩ := applySwitchReqs_busy rs s hb hinv0
  rw [hq] at h4
  have hinv' : ∀ t, (applySwitchReqs s rs).1.pendingSwitchId = some t →
      some t ≠ (applySwitchReqs s rs).1.backendConvId :=
    fun t ht => (h5 t ht).2
  obtain ⟨g1, g2, g3, g4⟩ := chatFinished_spec (applySwitchReqs s rs).1 h2 hinv'
  refine ⟨h1, h3, h4, g1, ?_, ?_⟩
  · rw [g3, h4]
  · rw [g4, h4, h3]

/-- Concrete run of C1: busy on `a`, the user clicks `b` then `c`; only the
most recent target `c` is queued, and `chat_finished` applies exactly that
switch once. -/
theorem c1_queued_switch_most_recent_witness :
    (applySwitchReqs sampleBusy ["b", "c"]).2 = [] ∧
    (applySwitchReqs sampleBusy ["b", "c"]).1.backendConvId = sampleBusy.backendConvId ∧
    (applySwitchReqs sampleBusy ["b", "c"]).1.pendingSwitchId =
      queuedAfter sampleBusy.backendConvId none ["b", "c"] ∧
    (handleChatFinished (applySwitchReqs sampleBusy ["b", "c"]).1).1.pendingSwitchId = none ∧
    switchTargets (handleChatFinished (applySwitchReqs sampleBusy ["b", "c"]).1).2 =
      (queuedAfter sampleBusy.backendConvId none ["b", "c"]).toList ∧
    (handleChatFinished (applySwitchReqs sampleBusy ["b", "c"]).1).1.backendConvId =
      (match queuedAfter sampleBusy.backendConvId none ["b", "c"] with
       | some t => some t
       | none => sampleBusy.backendConvId) :=
  c1_queued_switch_most_recent sampleBusy ["b", "c"] rfl rfl

/-! ## C2: Done applies the queued switch, Aborted does not -/

/-- C2 counterexample: a busy state with a queued switch to `b`; the
`error` event ends the turn (busy flag drops to idle) but the queued switch
is not applied — the backend id stays on `a`, the queue still holds `b`,
and nothing is sent — contradicting the claim that the queued switch is
applied the instant the turn reaches Aborted. -/
theorem c2_error_keeps_queue_counterexample :
    (handleError sampleBusyQueued "boom").1.isBusy = false ∧
    (handleError sampleBusyQueued "boom").1.pendingSwitchId = some "b" ∧
    (handleError sampleBusyQueued "boom").1.backendConvId = some "a" ∧
    (handleError sampleBusyQueued "boom").2 = [] := by
  refine ⟨?_, ?_, ?_, ?_⟩ <;> decide

/-- C2 (amended): a queued conversation switch is applied automatically
exactly once, immediately after `chat_finished` (the Done path); on the
`error` path (Aborted) the session returns to idle but the queued switch is
not applied — it stays queued and no `switch_conversation` command is
sent. -/
theorem c2_switch_applied_on_done_not_aborted (s : UIState) (t m : String)
    (hb : s.isBusy = true)
    (hp : s.pendingSwitchId = some t)
    (hne : some t ≠ s.backendConvId) :
    ((handleChatFinished s).1.pendingSwitchId = none ∧
     switchTargets (handleChatFinished s).2 = [t] ∧
     (handleChatFinished s).1.backendConvId = some t ∧
     (handleChatFinished s).1.isBusy = false) ∧
    ((handleError s m).1.pendingSwitchId = some t ∧
     (handleError s m).1.backendConvId = s.backendConvId ∧
     (handleError s m).2 = [] ∧
     (handleError s m).1.isBusy = false) := by
  have hinv : ∀ u, s.pendingSwitchId = some u → some u ≠ s.backendConvId := by
    intro u hu
    rw [hp] at hu
    cases hu
    exact hne
  obtain ⟨g1, g2, g3, g4⟩ := chatFinished_spec s hb hinv
  constructor
  · refine ⟨g1, ?_, ?_, g2⟩
    · rw [g3, hp]
      rfl
    · rw [g4, hp]
  · unfold handleError
    refine ⟨?_, ?_, rfl, ?_⟩
    · simp only [setBusy_pending, setStatus_pending, appendErrorMessage,
        withBackendConv_pending, finalizeAssistantMessage]
      exact hp
    · simp only [setBusy_backend, setStatus_backend, appendErrorMessage,
        withBackendConv_backend, finalizeAssistantMessage]
    · simp only [setBusy_isBusy]

/-! ## C4/C8: FIFO correlation of tool results by name -/

lemma extractFirst_eq_none_iff {α : Type} (p : α → Bool) (l : List α) :
    extractFirst p l = none ↔ ∀ x ∈ l, p x = false := by
  induction l with
  | nil => simp [extractFirst]
  | cons a l ih =>
    by_cases ha : p a
    · simp [extractFirst, ha]
    · simp only [extractFirst, if_neg ha, List.mem_cons]
      constructor
      · intro h x hx
        rcases hx with hx | hx
        · subst hx
          exact Bool.eq_false_iff.mpr ha
        · exact (ih.mp (by
            cases he : extractFirst p l with
            | none => rfl
            | some r => rw [he] at h; cases h)) x hx
      · intro h
        rw [ih.mpr (fun x hx => h x (Or.inr hx))]
        rfl

lemma extractFirst_eq_some {α : Type} {p : α → Bool} {l : List α} {x : α} {rest : List α}
    (h : extractFirst p l = some (x, rest)) :
    ∃ l1 l2, l = l1 ++ x :: l2 ∧ rest = l1 ++ l2 ∧ p x = true ∧ ∀ y ∈ l1, p y = false := by
  induction l generalizing rest with
  | nil => cases h
  | cons a l ih =>
    by_cases ha : p a
    · simp only [extractFirst, if_pos ha] at h
      obtain ⟨hx, hrest⟩ := Prod.mk.injEq .. ▸ (Option.some.injEq _ _ ▸ h)
      refine ⟨[], l, ?_, ?_, ?_, ?_⟩
      · rw [hx]
        rfl
      · rw [hrest]
        rfl
      · rw [← hx]
        exact ha
      · intro y hy
        cases hy
    · simp only [extractFirst, if_neg ha] at h
      cases he : extractFirst p l with
      | none => rw [he] at h; cases h
      | some r =>
        rw [he] at h
        obtain ⟨x', rest'⟩ := r
        simp only [Option.map_some', Option.some.injEq, Prod.mk.injEq] at h
        obtain ⟨hx, hrest⟩ := h
        subst hx
        obtain ⟨l1, l2, hl, hr, hp, hl1⟩ := ih he
        refine ⟨a :: l1, l2, ?_, ?_, hp, ?_⟩
        · rw [hl]
          rfl
        · rw [← hrest, hr]
          rfl
        · intro y hy
          rcases List.mem_cons.mp hy with hy | hy
          · subst hy
            exact Bool.eq_false_iff.mpr ha
          · exact hl1 y hy

lemma extractFirst_isSome_of_mem {α : Type} (p : α → Bool) {l : List α} {x : α}
    (hx : x ∈ l) (hp : p x = true) : ∃ r, extractFirst p l = some r := by
  induction l with
  | nil => cases hx
  | cons a l ih =>
    by_cases ha : p a
    · exact ⟨(a, l), by simp [extractFirst, ha]⟩
    · rcases List.mem_cons.mp hx with hxa | hxl
      · subst hxa
        exact absurd hp (by simp [ha])
      · obtain ⟨r, hr⟩ := ih hxl
        exact ⟨(r.1, a :: r.2), by simp [extractFirst, ha, hr]⟩

lemma find?_updateNode (ns : List Node) (nid₀ : Nat) (f : NodeData → NodeData) (m : Nat) :
    (updateNode ns nid₀ f).find? (fun n => n.nid == m) =
      ((ns.find? (fun n => n.nid == m)).map
        (fun n => if n.nid = nid₀ then ⟨n.nid, f n.data⟩ else n)) := by
  induction ns with
  | nil => rfl
  | cons a ns ih =>
    simp only [updateNode, List.map_cons, List.find?]
    have hnid : ((if a.nid = nid₀ then (⟨a.nid, f a.data⟩ : Node) else a).nid == m) =
        (a.nid == m) := by
      split <;> rfl
    rw [hnid]
    cases h : (a.nid == m) with
    | true => rfl
    | false => exact ih

/-- Rewriting a tool card with a result keeps its tool name, so name-based
matching of the remaining pending cards is unaffected. -/
lemma cardHasName_updateNode (ns : List Node) (nid₀ : Nat) (st bd : String)
    (m : Nat) (name : String) :
    cardHasName (updateNode ns nid₀ (rewriteCard st bd)) m name =
      cardHasName ns m name := by
  unfold cardHasName
  rw [find?_updateNode]
  cases h : ns.find? (fun n => n.nid == m) with
  | none => rfl
  | some n =>
    simp only [Option.map_some']
    by_cases hn : n.nid = nid₀
    · rw [if_pos hn]
      cases hd : n.data <;> simp [rewriteCard, hd]
    · rw [if_neg hn]

/-- C4: a `tool_result{name, result, status}` event is matched by FIFO
correlation on the tool name: when some pending card bears the name, the
queue splits as `l1 ++ nid :: l2` with every earlier-queued card's name
different; exactly that earliest card is removed from the queue, and that
card alone is rewritten with the result's status and the 150-character
preview of the result text. -/
theorem c4_tool_result_fifo (s : UIState) (name result status : String) (conv : Conv)
    (hconv : getConv s s.backendConvId = some conv)
    (hmatch : ∃ nid ∈ conv.pendingToolCards, cardHasName conv.nodes nid name = true) :
    ∃ l1 nid l2,
      conv.pendingToolCards = l1 ++ nid :: l2 ∧
      cardHasName conv.nodes nid name = true ∧
      (∀ y ∈ l1, cardHasName conv.nodes y name = false) ∧
      getConv (appendToolResult s name result status) s.backendConvId =
        some { conv with
               pendingToolCards := l1 ++ l2,
               nodes := updateNode conv.nodes nid (rewriteCard status (preview150 result)) } := by
  obtain ⟨nid0, hmem, hp⟩ := hmatch
  obtain ⟨r, hr⟩ :=
    extractFirst_isSome_of_mem (fun z => cardHasName conv.nodes z name) hmem hp
  obtain ⟨nid, rest⟩ := r
  obtain ⟨l1, l2, hl, hrest, hpx, hl1⟩ := extractFirst_eq_some hr
  refine ⟨l1, nid, l2, hl, hpx, hl1, ?_⟩
  have happ : appendToolResult s name result status =
      setConv s
        { conv with
          pendingToolCards := rest,
          nodes := updateNode conv.nodes nid (rewriteCard status (preview150 result)) } := by
    simp only [appendToolResult, hconv, hr]
  rw [happ, hrest]
  exact getConv_setConv_of_found hconv _ rfl

/-- Concrete application of C4: two pending `read_file` cards; the result
is matched to the earlier one. -/
theorem c4_tool_result_fifo_witness :
    ∃ l1 nid l2,
      toolConv.pendingToolCards = l1 ++ nid :: l2 ∧
      cardHasName toolConv.nodes nid "read_file" = true ∧
      (∀ y ∈ l1, cardHasName toolConv.nodes y "read_file" = false) ∧
      getConv (appendToolResult sampleToolState "read_file" "res" "ok")
          sampleToolState.backendConvId =
        some { toolConv with
               pendingToolCards := l1 ++ l2,
               nodes := updateNode toolConv.nodes nid
                 (rewriteCard "ok" (preview150 "res")) } :=
  c4_tool_result_fifo sampleToolState "read_file" "res" "ok" toolConv rfl
    ⟨0, by decide, by decide⟩

/-- C8 counterexample: with two pending cards both named `read_file`, a
duplicated `tool_result` consumes the second card as well — applying the
handler twice does not equal applying it once. -/
theorem c8_duplicate_not_idempotent_counterexample :
    appendToolResult (appendToolResult sampleToolState "read_file" "res" "ok")
        "read_file" "res" "ok" ≠
      appendToolResult sampleToolState "read_file" "res" "ok" := by
  decide

/-- C8 (amended): processing a duplicated `tool_result` is idempotent
provided at most one pending card bears the event's tool name (the
invariant the dispatcher is required to uphold: a tool name is never
dispatched twice concurrently within one batch).  The first matching event
consumes the card; a duplicate then matches nothing and leaves the state
unchanged.  With two same-named pending cards the duplicate wrongly
consumes the second card. -/
theorem c8_tool_result_idempotent (s : UIState) (name result status : String)
    (huniq : ∀ conv, getConv s s.backendConvId = some conv →
      (conv.pendingToolCards.filter
        (fun nid => cardHasName conv.nodes nid name)).length ≤ 1) :
    appendToolResult (appendToolResult s name result status) name result status =
      appendToolResult s name result status := by
  cases hconv : getConv s s.backendConvId with
  | none =>
    have h1 : appendToolResult s name result status = s := by
      simp only [appendToolResult, hconv]
    rw [h1, h1]
  | some conv =>
    cases hr : extractFirst (fun nid => cardHasName conv.nodes nid name)
        conv.pendingToolCards with
    | none =>
      have h1 : appendToolResult s name result status = s := by
        simp only [appendToolResult, hconv, hr]
      rw [h1, h1]
    | some r =>
      obtain ⟨nid, rest⟩ := r
      obtain ⟨l1, l2, hl, hrest, hpx, hl1⟩ := extractFirst_eq_some hr
      have hcount := huniq conv hconv
      have hl2 : ∀ y ∈ l2, cardHasName conv.nodes y name = false := by
        intro y hy
        by_contra hyc
        have hyc' : cardHasName conv.nodes y name = true := by
          revert hyc
          cases cardHasName conv.nodes y name <;> simp
        have h2big : 2 ≤ (conv.pendingToolCards.filter
            (fun z => cardHasName conv.nodes z name)).length := by
          have hmem2 : y ∈ l2.filter (fun z => cardHasName conv.nodes z name) :=
            List.mem_filter.mpr ⟨hy, by simpa using hyc'⟩
          have h2 : 0 < (l2.filter (fun z => cardHasName conv.nodes z name)).length :=
            List.length_pos_of_mem hmem2
          rw [hl]
          simp only [List.filter_append, List.filter_cons, hpx, eq_self_iff_true,
            if_true, List.length_append, List.length_cons]
          omega
        omega
      set conv' : Conv :=
        { conv with
          pendingToolCards := rest,
          nodes := updateNode conv.nodes nid (rewriteCard status (preview150 result)) }
        with hcdef
      have h1 : appendToolResult s name result status = setConv s conv' := by
        simp only [appendToolResult, hconv, hr, hcdef]
      have hfound : getConv (setConv s conv') s.backendConvId = some conv' :=
        getConv_setConv_of_found hconv conv' rfl
      have hnone : extractFirst (fun nid => cardHasName conv'.nodes nid name)
          conv'.pendingToolCards = none := by
        rw [extractFirst_eq_none_iff]
        intro y hy
        rw [hcdef]
        simp only
        rw [cardHasName_updateNode]
        have hy' : y ∈ l1 ++ l2 := by
          rw [hcdef] at hy
          simp only at hy
          rw [hrest] at hy
          exact hy
        rcases List.mem_append.mp hy' with hy1 | hy2
        · exact hl1 y hy1
        · exact hl2 y hy2
      rw [h1]
      have h2 : appendToolResult (setConv s conv') name result status = setConv s conv' := by
        simp only [appendToolResult, setConv_backend, hfound, hnone]
      exact h2

/-- Concrete application of the amended C8 theorem: with distinct pending
tool names a duplicated `tool_result` is a no-op. -/
theorem c8_tool_result_idempotent_witness :
    appendToolResult (appendToolResult sampleToolStateUniq "read_file" "res" "ok")
        "read_file" "res" "ok" =
      appendToolResult sampleToolStateUniq "read_file" "res" "ok" :=
  c8_tool_result_idempotent sampleToolStateUniq "read_file" "res" "ok"
    (by
      intro conv hconv
      rw [show getConv sampleToolStateUniq sampleToolStateUniq.backendConvId =
        some toolConvUniq from rfl] at hconv
      cases hconv
      decide)

/-! ## C9: rendering targets the backend conversation only -/

/-- Between two registry snapshots: same ids in the same order, and every
conversation whose id is not the given one is untouched. -/
def OnlyIdTouched (i : Option String) (l1 l2 : List Conv) : Prop :=
  List.Forall₂ (fun c c' => c.id = c'.id ∧ (some c.id ≠ i → c' = c)) l1 l2

lemma onlyIdTouched_refl (i : Option String) (l : List Conv) : OnlyIdTouched i l l := by
  rw [OnlyIdTouched, List.forall₂_same]
  exact fun x _ => ⟨rfl, fun _ => rfl⟩

lemma onlyIdTouched_trans {i : Option String} {l1 l2 l3 : List Conv}
    (h1 : OnlyIdTouched i l1 l2) (h2 : OnlyIdTouched i l2 l3) : OnlyIdTouched i l1 l3 := by
  induction h1 generalizing l3 with
  | nil =>
    cases h2
    exact List.Forall₂.nil
  | @cons a b l1' l2' hab h1' ih =>
    cases h2 with
    | cons hbc h2' =>
      refine List.Forall₂.cons ⟨hab.1.trans hbc.1, ?_⟩ (ih h2')
      intro hne
      have hb := hab.2 hne
      have hne' : some b.id ≠ i := by
        rw [← hab.1]
        exact hne
      have hc := hbc.2 hne'
      rw [hc, hb]

lemma onlyIdTouched_setConv (i : Option String) (s : UIState) (c' : Conv)
    (hi : some c'.id = i) :
    OnlyIdTouched i s.conversations (setConv s c').conversations := by
  show List.Forall₂ _ s.conversations (s.conversations.map _)
  rw [List.forall₂_map_right_iff, List.forall₂_same]
  intro c _
  constructor
  · split
    · next h => exact h
    · rfl
  · intro hne
    split
    · next h =>
      exact absurd (by rw [h]; exact hi) hne
    · rfl

lemma onlyIdTouched_withBackendConv (s : UIState) (g : Conv → Conv)
    (hg : ∀ c, (g c).id = c.id) :
    OnlyIdTouched s.backendConvId s.conversations (withBackendConv s g).conversations := by
  unfold withBackendConv
  cases h : getConv s s.backendConvId with
  | none => exact onlyIdTouched_refl _ _
  | some conv =>
    apply onlyIdTouched_setConv
    rw [hg conv]
    exact (getConv_some_id h).symm

/-- Composing two updates that each only touch the backend conversation. -/
lemma onlyIdTouched_comp {s s1 s2 : UIState}
    (h1 : OnlyIdTouched s.backendConvId s.conversations s1.conversations)
    (hb : s1.backendConvId = s.backendConvId)
    (h2 : OnlyIdTouched s1.backendConvId s1.conversations s2.conversations) :
    OnlyIdTouched s.backendConvId s.conversations s2.conversations :=
  onlyIdTouched_trans h1 (hb ▸ h2)

lemma appendUserMessageStep_id (content : String) (c : Conv) :
    (appendUserMessageStep content c).id = c.id := rfl

lemma tokenStep_id (content : String) (c : Conv) : (tokenStep content c).id = c.id := by
  unfold tokenStep startAssistantMessage
  by_cases h : c.currentAssistant = none
  · rw [if_pos h]
  · rw [if_neg h]
    dsimp only
    cases hc : c.currentAssistant with
    | none => exact absurd hc h
    | some nid => rfl

lemma finalizeConv_id (c : Conv) : (finalizeConv c).id = c.id := by
  unfold finalizeConv
  split <;> rfl

lemma toolCallStep_id (name argsStr : String) (c : Conv) :
    (toolCallStep name argsStr c).id = c.id := rfl

lemma confirmCardStep_id (cid tool argsStr preview : String) (c : Conv) :
    (confirmCardStep cid tool argsStr preview c).id = c.id := rfl

lemma removeEphemeralStep_id (c : Conv) : (removeEphemeralStep c).id = c.id := rfl

lemma statusMsgStep_id (text : String) (ephemeral : Bool) (c : Conv) :
    (statusMsgStep text ephemeral c).id = c.id := rfl

lemma errorMsgStep_id (text : String) (c : Conv) : (errorMsgStep text c).id = c.id := rfl

lemma todoListStep_id (todos : List Todo) (c : Conv) : (todoListStep todos c).id = c.id := by
  unfold todoListStep
  split <;> rfl

/-- `withBackendConv` is the identity when the backend id resolves to no
conversation (partial-application form for simp). -/
lemma withBackendConv_none (s : UIState) (h : getConv s s.backendConvId = none)
    (g : Conv → Conv) : withBackendConv s g = s := by
  unfold withBackendConv
  rw [h]

lemma onlyIdTouched_appendToolResult (s : UIState) (name result status : String) :
    OnlyIdTouched s.backendConvId s.conversations
      (appendToolResult s name result status).conversations := by
  cases h : getConv s s.backendConvId with
  | none =>
    have he : appendToolResult s name result status = s := by
      simp only [appendToolResult, h]
    rw [he]
    exact onlyIdTouched_refl _ _
  | some conv =>
    cases hr : extractFirst (fun nid => cardHasName conv.nodes nid name)
        conv.pendingToolCards with
    | none =>
      have he : appendToolResult s name result status = s := by
        simp only [appendToolResult, h, hr]
      rw [he]
      exact onlyIdTouched_refl _ _
    | some r =>
      obtain ⟨nid, rest⟩ := r
      have he : appendToolResult s name result status =
          setConv s
            { conv with
              pendingToolCards := rest,
              nodes := updateNode conv.nodes nid (rewriteCard status (preview150 result)) } := by
        simp only [appendToolResult, h, hr]
      rw [he]
      apply onlyIdTouched_setConv
      exact (getConv_some_id h).symm

/-- C9: every conversation-element rendering operation driven by an
incoming event (token, tool_call, tool_result, confirm_request, status,
error message, todo_update, the user-message echo) writes only into the
conversation named by the backend-active id — every other conversation's
registry entry is untouched — and is a no-op when that id maps to no
conversation in the registry. -/
theorem c9_render_targets_backend (op : RenderOp) (s : UIState) :
    (getConv s s.backendConvId = none → applyRenderOp op s = s) ∧
    OnlyIdTouched s.backendConvId s.conversations (applyRenderOp op s).conversations := by
  constructor
  · intro h
    cases op with
    | token c =>
      simp only [applyRenderOp, appendToken, removeEphemeralStatus,
        withBackendConv_none s h]
    | toolCall n a =>
      simp only [applyRenderOp, appendToolCall, finalizeAssistantMessage,
        removeEphemeralStatus, withBackendConv_none s h]
    | toolResult n r st =>
      simp only [applyRenderOp, appendToolResult, h]
    | confirmRequest i t a p =>
      simp only [applyRenderOp, appendConfirmCard, finalizeAssistantMessage,
        withBackendConv_none s h]
    | statusEvent t e =>
      simp only [applyRenderOp, appendStatusMessage, removeEphemeralStatus,
        withBackendConv_none s h]
    | errorEvent t =>
      simp only [applyRenderOp, appendErrorMessage, finalizeAssistantMessage,
        withBackendConv_none s h]
    | todoUpdate ts =>
      simp only [applyRenderOp, renderTodoList, withBackendConv_none s h]
    | userEcho c =>
      simp only [applyRenderOp, appendUserMessage, withBackendConv_none s h]
  · cases op with
    | token c =>
      exact onlyIdTouched_comp
        (onlyIdTouched_withBackendConv s removeEphemeralStep removeEphemeralStep_id)
        (withBackendConv_backend s removeEphemeralStep)
        (onlyIdTouched_withBackendConv _ (tokenStep c) (tokenStep_id c))
    | toolCall n a =>
      exact onlyIdTouched_comp
        (onlyIdTouched_comp
          (onlyIdTouched_withBackendConv s removeEphemeralStep removeEphemeralStep_id)
          (withBackendConv_backend s removeEphemeralStep)
          (onlyIdTouched_withBackendConv _ finalizeConv finalizeConv_id))
        (by simp only [finalizeAssistantMessage, removeEphemeralStatus,
          withBackendConv_backend])
        (onlyIdTouched_withBackendConv _ (toolCallStep n a) (toolCallStep_id n a))
    | toolResult n r st =>
      exact onlyIdTouched_appendToolResult s n r st
    | confirmRequest i t a p =>
      exact onlyIdTouched_comp
        (onlyIdTouched_withBackendConv s finalizeConv finalizeConv_id)
        (withBackendConv_backend s finalizeConv)
        (onlyIdTouched_withBackendConv _ (confirmCardStep i t a p) (confirmCardStep_id i t a p))
    | statusEvent t e =>
      exact onlyIdTouched_comp
        (onlyIdTouched_withBackendConv s removeEphemeralStep removeEphemeralStep_id)
        (withBackendConv_backend s removeEphemeralStep)
        (onlyIdTouched_withBackendConv _ (statusMsgStep t e) (statusMsgStep_id t e))
    | errorEvent t =>
      exact onlyIdTouched_comp
        (onlyIdTouched_withBackendConv s finalizeConv finalizeConv_id)
        (withBackendConv_backend s finalizeConv)
        (onlyIdTouched_withBackendConv _ (errorMsgStep t) (errorMsgStep_id t))
    | todoUpdate ts =>
      exact onlyIdTouched_withBackendConv s (todoListStep ts) (todoListStep_id ts)
    | userEcho c =>
      exact onlyIdTouched_withBackendConv s (appendUserMessageStep c) (appendUserMessageStep_id c)

/-- Concrete application of C9: with a backend id absent from the registry
the token render is a no-op, and in general it touches no other
conversation. -/
theorem c9_render_targets_backend_witness :
    applyRenderOp (.token "hi") sampleNoBackend = sampleNoBackend ∧
    OnlyIdTouched sampleNoBackend.backendConvId sampleNoBackend.conversations
      (applyRenderOp (.token "hi") sampleNoBackend).conversations :=
  ⟨(c9_render_targets_backend (.token "hi") sampleNoBackend).1 (by decide),
   (c9_render_targets_backend (.token "hi") sampleNoBackend).2⟩

/-! ## C10: `conversation_switched` snapshot restore -/

/-- The conversation `ensureConversation` hands back for the switch target:
the registered one, or the freshly created one. -/
def ensuredConv (s : UIState) (convId title : String) : Conv :=
  (getConv s (some convId)).getD (createConversationState convId title)

/-- The switch target's conversation after the snapshot-restore step of the
`conversation_switched` handler: the `ui_html` snapshot replaces the
element's children only when the snapshot is nonempty and the element has
zero children; otherwise the element is untouched. -/
def restoredConv (s : UIState) (convId title html : String) : Conv :=
  if html ≠ "" ∧ (ensuredConv s convId title).nodes = [] then
    { ensuredConv s convId title with
      nodes := [⟨(ensuredConv s convId title).nextNid, NodeData.snapshotHtml html⟩],
      nextNid := (ensuredConv s convId title).nextNid + 1 }
  else ensuredConv s convId title

lemma ensuredConv_id (s : UIState) (convId title : String) :
    (ensuredConv s convId title).id = convId := by
  unfold ensuredConv
  cases h : getConv s (some convId) with
  | none => rfl
  | some c =>
    have hc := List.find?_some
      (show s.conversations.find? (fun c0 => c0.id == convId) = some c from h)
    simpa using hc

lemma getConv_setConv_ne (s : UIState) (c' : Conv) (x : String) (hx : ¬x = c'.id) :
    getConv (setConv s c') (some x) = getConv s (some x) := by
  show (s.conversations.map fun c0 => if c0.id = c'.id then c' else c0).find?
      (fun c => c.id == x) = s.conversations.find? (fun c => c.id == x)
  rw [find?_map_id_pres _ _
    (fun c => by
      split
      · next h => exact h.symm
      · rfl) x]
  cases h : s.conversations.find? (fun c => c.id == x) with
  | none => rfl
  | some c =>
    have hcx : c.id = x := by simpa using List.find?_some h
    simp only [Option.map_some']
    rw [if_neg (by rw [hcx]; exact hx)]

lemma getConv_show (s : UIState) (convId y : String) :
    getConv (showConversation s convId) (some y) =
      (getConv s (some y)).map (fun c => { c with visible := c.id == convId }) := by
  have h := find?_map_id_pres s.conversations
    (fun c => { c with visible := c.id == convId }) (fun c => rfl) y
  exact h

lemma getConv_ensure_self (s : UIState) (convId title : String) :
    getConv (ensureConversation s convId title) (some convId) =
      some (ensuredConv s convId title) := by
  unfold ensureConversation ensuredConv
  by_cases h : (s.conversations.find? (fun c => c.id == convId)).isSome
  · rw [if_pos h]
    obtain ⟨c, hc⟩ := Option.isSome_iff_exists.mp h
    show s.conversations.find? (fun c0 => c0.id == convId) = _
    rw [hc]
    show some c = some ((getConv s (some convId)).getD _)
    rw [show getConv s (some convId) = some c from hc]
    rfl
  · rw [if_neg h]
    have hn : s.conversations.find? (fun c => c.id == convId) = none :=
      Option.not_isSome_iff_eq_none.mp h
    show ((s.conversations ++ [createConversationState convId title]).find?
      (fun c => c.id == convId)) = _
    rw [List.find?_append, hn]
    rw [show getConv s (some convId) = none from hn]
    simp [List.find?, createConversationState]

lemma getConv_ensure_ne (s : UIState) (convId title x : String) (hx : x ≠ convId) :
    getConv (ensureConversation s convId title) (some x) = getConv s (some x) := by
  unfold ensureConversation
  split
  · rfl
  · show ((s.conversations ++ [createConversationState convId title]).find?
      (fun c => c.id == x)) = _
    rw [List.find?_append]
    have hone : List.find? (fun c => c.id == x) [createConversationState convId title] =
        none := by
      have hbeq : (convId == x) = false := beq_eq_false_iff_ne.mpr (fun hh => hx hh.symm)
      simp [List.find?, createConversationState, hbeq]
    rw [hone]
    exact Option.or_none

/-- C10: on a `conversation_switched` event the carried `ui_html` snapshot
is written into the target conversation's element only when that element
has zero child nodes (and the snapshot is nonempty); an element that
already holds content keeps it verbatim (`restoredConv` is the identity
there), and every other conversation's registry entry is unchanged except
for being hidden. -/
theorem c10_snapshot_restore (s : UIState) (convId title html x : String) :
    (x ≠ convId →
      getConv (handleConversationSwitched s convId title html) (some x) =
        (getConv s (some x)).map (fun c => { c with visible := false })) ∧
    getConv (handleConversationSwitched s convId title html) (some convId) =
      some { restoredConv s convId title html with visible := true } := by
  have hold := getConv_ensure_self s convId title
  have hid := ensuredConv_id s convId title
  unfold handleConversationSwitched
  dsimp only
  rw [hold]
  dsimp only
  by_cases hres : html ≠ "" ∧ (ensuredConv s convId title).nodes = []
  · rw [if_pos hres]
    constructor
    · intro hx
      have h1 : getConv
          (enableInput
            { showConversation
                (setConv (ensureConversation s convId title)
                  { ensuredConv s convId title with
                    nodes := [⟨(ensuredConv s convId title).nextNid,
                      NodeData.snapshotHtml html⟩],
                    nextNid := (ensuredConv s convId title).nextNid + 1 }) convId with
              backendConvId := some convId, pendingSwitchId := none }) (some x) =
          getConv (showConversation
            (setConv (ensureConversation s convId title)
              { ensuredConv s convId title with
                nodes := [⟨(ensuredConv s convId title).nextNid,
                  NodeData.snapshotHtml html⟩],
                nextNid := (ensuredConv s convId title).nextNid + 1 }) convId) (some x) := rfl
      rw [h1, getConv_show,
        getConv_setConv_ne _ _ _ (by
          show ¬x = ({ ensuredConv s convId title with
            nodes := [⟨(ensuredConv s convId title).nextNid, NodeData.snapshotHtml html⟩],
            nextNid := (ensuredConv s convId title).nextNid + 1 } : Conv).id
          rw [show ({ ensuredConv s convId title with
            nodes := [⟨(ensuredConv s convId title).nextNid, NodeData.snapshotHtml html⟩],
            nextNid := (ensuredConv s convId title).nextNid + 1 } : Conv).id = convId from hid]
          exact hx),
        getConv_ensure_ne _ _ _ _ hx]
      cases hgx : getConv s (some x) with
      | none => rfl
      | some c =>
        have hcx : c.id = x := by
          simpa using List.find?_some
            (show s.conversations.find? (fun c0 => c0.id == x) = some c from hgx)
        simp only [Option.map_some']
        have hfalse : (c.id == convId) = false := by
          rw [hcx]
          exact beq_eq_false_iff_ne.mpr hx
        rw [hfalse]
    · have h1 : getConv
          (enableInput
            { showConversation
                (setConv (ensureConversation s convId title)
                  { ensuredConv s convId title with
                    nodes := [⟨(ensuredConv s convId title).nextNid,
                      NodeData.snapshotHtml html⟩],
                    nextNid := (ensuredConv s convId title).nextNid + 1 }) convId with
              backendConvId := some convId, pendingSwitchId := none }) (some convId) =
          getConv (showConversation
            (setConv (ensureConversation s convId title)
              { ensuredConv s convId title with
                nodes := [⟨(ensuredConv s convId title).nextNid,
                  NodeData.snapshotHtml html⟩],
                nextNid := (ensuredConv s convId title).nextNid + 1 }) convId) (some convId) := rfl
      rw [h1, getConv_show,
        getConv_setConv_of_found hold
          ({ ensuredConv s convId title with
             nodes := [⟨(ensuredConv s convId title).nextNid, NodeData.snapshotHtml html⟩],
             nextNid := (ensuredConv s convId title).nextNid + 1 }) rfl]
      simp only [Option.map_some']
      have htrue : (({ ensuredConv s convId title with
          nodes := [⟨(ensuredConv s convId title).nextNid, NodeData.snapshotHtml html⟩],
          nextNid := (ensuredConv s convId title).nextNid + 1 } : Conv).id == convId) = true := by
        rw [show ({ ensuredConv s convId title with
          nodes := [⟨(ensuredConv s convId title).nextNid, NodeData.snapshotHtml html⟩],
          nextNid := (ensuredConv s convId title).nextNid + 1 } : Conv).id = convId from hid]
        exact beq_self_eq_true convId
      rw [htrue]
      unfold restoredConv
      rw [if_pos hres]
  · rw [if_neg hres]
    constructor
    · intro hx
      have h1 : getConv
          (enableInput
            { showConversation (ensureConversation s convId title) convId with
              backendConvId := some convId, pendingSwitchId := none }) (some x) =
          getConv (showConversation (ensureConversation s convId title) convId) (some x) := rfl
      rw [h1, getConv_show, getConv_ensure_ne _ _ _ _ hx]
      cases hgx : getConv s (some x) with
      | none => rfl
      | some c =>
        have hcx : c.id = x := by
          simpa using List.find?_some
            (show s.conversations.find? (fun c0 => c0.id == x) = some c from hgx)
        simp only [Option.map_some']
        have hfalse : (c.id == convId) = false := by
          rw [hcx]
          exact beq_eq_false_iff_ne.mpr hx
        rw [hfalse]
    · have h1 : getConv
          (enableInput
            { showConversation (ensureConversation s convId title) convId with
              backendConvId := some convId, pendingSwitchId := none }) (some convId) =
          getConv (showConversation (ensureConversation s convId title) convId) (some convId) := rfl
      rw [h1, getConv_show, hold]
      simp only [Option.map_some']
      have htrue : ((ensuredConv s convId title).id == convId) = true := by
        rw [hid]
        exact beq_self_eq_true convId
      rw [htrue]
      unfold restoredConv
      rw [if_neg hres]

/-- Concrete application of C10: the snapshot is restored into the empty
conversation `b`, and conversation `a` keeps its element, merely hidden. -/
theorem c10_snapshot_restore_witness :
    ("a" ≠ "b" →
      getConv (handleConversationSwitched sampleBase "b" "t" "<p>x</p>") (some "a") =
        (getConv sampleBase (some "a")).map (fun c => { c with visible := false })) ∧
    getConv (handleConversationSwitched sampleBase "b" "t" "<p>x</p>") (some "b") =
      some { restoredConv sampleBase "b" "t" "<p>x</p>" with visible := true } :=
  c10_snapshot_restore sampleBase "b" "t" "<p>x</p>" "a"

/-- Concrete application of the amended C2 theorem at the queued sample
state. -/
theorem c2_switch_applied_on_done_not_aborted_witness :
    ((handleChatFinished sampleBusyQueued).1.pendingSwitchId = none ∧
     switchTargets (handleChatFinished sampleBusyQueued).2 = ["b"] ∧
     (handleChatFinished sampleBusyQueued).1.backendConvId = some "b" ∧
     (handleChatFinished sampleBusyQueued).1.isBusy = false) ∧
    ((handleError sampleBusyQueued "x").1.pendingSwitchId = some "b" ∧
     (handleError sampleBusyQueued "x").1.backendConvId = sampleBusyQueued.backendConvId ∧
     (handleError sampleBusyQueued "x").2 = [] ∧
     (handleError sampleBusyQueued "x").1.isBusy = false) :=
  c2_switch_applied_on_done_not_aborted sampleBusyQueued "b" "x" rfl rfl (by decide)

end UCF
